import Mathlib

/-!
Shallow embedding of the citation engine of `literature_manager_v7.py`
(functions `smart_parse_authors`, `parse_citation`, `apa_citation`,
`replace_ids`, `insert_refs`).

Modelling conventions:
* Python strings are modelled as `String` / `List Char`; the regex
  classes `\d` and `\s` are modelled over their ASCII ranges
  (`Char.isDigit`, resp. space, tab, newline, carriage return, vertical
  tab and form feed), which is the range exercised by the source.
* Python exceptions (the reachable one is `IndexError` from `toks[-1]`
  in `smart_parse_authors`) are modelled as `none`; normal returns as
  `some`.
* The regexes of the source are translated as deterministic searches
  that reproduce the leftmost-match / lazy / greedy backtracking order
  of the `re` module for the concrete patterns involved.
-/

/-- Python `str.isspace` over the ASCII range, which is also the set
matched by the regex class `\s` for these inputs. -/
def pyIsSpace (c : Char) : Bool :=
  c = ' ' || c = '\t' || c = '\n' || c = '\r' || c = '\x0b' || c = '\x0c'

/-- Python `str.strip(chars)`: remove leading and trailing characters
satisfying `f`. -/
def stripBoth (f : Char → Bool) (l : List Char) : List Char :=
  ((l.dropWhile f).reverse.dropWhile f).reverse

/-- Python `str.strip()` (whitespace strip). -/
def stripWs (l : List Char) : List Char :=
  stripBoth pyIsSpace l

/-- Python `str.strip(" ,.")`, the per-segment trim of `smart_parse_authors`. -/
def stripAuthorEnds (l : List Char) : List Char :=
  stripBoth (fun c => c = ' ' || c = ',' || c = '.') l

/-- Python `str.split(sep)` for a one-character separator: keeps empty
segments, and yields one (empty) segment for the empty string. -/
def splitOnChar (sep : Char) : List Char → List (List Char)
  | [] => [[]]
  | c :: cs =>
    if c = sep then [] :: splitOnChar sep cs
    else
      match splitOnChar sep cs with
      | h :: t => (c :: h) :: t
      | [] => [[c]]

/-- Python `str.split()` (no argument): split on whitespace runs,
dropping empty tokens. -/
def splitWs : List Char → List (List Char)
  | [] => []
  | c :: cs =>
    if pyIsSpace c then splitWs cs
    else
      match cs with
      | [] => [[c]]
      | d :: _ =>
        if pyIsSpace d then [c] :: splitWs cs
        else
          match splitWs cs with
          | t :: ts => (c :: t) :: ts
          | [] => [[c]]

/-- Python `" ".join(toks)`. -/
def joinSpace : List (List Char) → List Char
  | [] => []
  | [t] => t
  | t :: ts => t ++ ' ' :: joinSpace ts

/-- Split at the first comma, comma removed; used for the guarded
`p.split(",", 1)` of the source (only called when a comma is present). -/
def splitFirstComma : List Char → List Char × List Char
  | [] => ([], [])
  | c :: cs =>
    if c = ',' then ([], cs)
    else
      let r := splitFirstComma cs
      (c :: r.1, r.2)

/-- Python `str.replace(old, new)` (all non-overlapping occurrences,
left to right), fuelled so that it is structurally recursive; the fuel
`s.length` supplied by `strReplace` always suffices because each match
consumes at least one character. -/
def strReplaceAux (old new : List Char) : Nat → List Char → List Char
  | _, [] => []
  | 0, s => s
  | fuel + 1, c :: cs =>
    if old ≠ [] ∧ List.isPrefixOf old (c :: cs) then
      new ++ strReplaceAux old new fuel (List.drop old.length (c :: cs))
    else
      c :: strReplaceAux old new fuel cs

/-- Python `str.replace(old, new)`. -/
def strReplace (old new s : List Char) : List Char :=
  strReplaceAux old new s.length s

/-- Number of positions at which `pat` occurs as a substring. -/
def occCount (pat : List Char) : List Char → Nat
  | [] => 0
  | c :: cs => (if List.isPrefixOf pat (c :: cs) then 1 else 0) + occCount pat cs

/-- Leftmost-match search: try the matcher at every suffix, left to
right, as `re.search` does. -/
def searchAux {α : Type} (m : List Char → Option α) : List Char → Option α
  | [] => none
  | c :: cs =>
    match m (c :: cs) with
    | some r => some r
    | none => searchAux m cs

/-- Anchored matcher for the page-range regex `\d{1,5}\s*[-–]\s*\d{1,5}`
of `parse_citation`.  The greedy `\d{1,5}` admits no shorter match
(a digit can continue neither into `\s*` nor into the dash), so a run
of more than five digits fails at this position. -/
def pagesMatchAt (s : List Char) : Option (List Char) :=
  let d1 := s.takeWhile Char.isDigit
  if d1 = [] ∨ 5 < d1.length then none
  else
    let r1 := s.drop d1.length
    let w1 := r1.takeWhile pyIsSpace
    match r1.drop w1.length with
    | dash :: r3 =>
      if dash = '-' ∨ dash = '–' then
        let w2 := r3.takeWhile pyIsSpace
        let d2 := ((r3.drop w2.length).takeWhile Char.isDigit).take 5
        if d2 = [] then none
        else some (d1 ++ w1 ++ dash :: w2 ++ d2)
      else none
    | [] => none

/-- Anchored matcher for the year regex `(19\d{2}|20\d{2})`. -/
def yearMatchAt (s : List Char) : Option (List Char) :=
  match s with
  | a :: b :: c :: d :: _ =>
    if ((a = '1' ∧ b = '9') ∨ (a = '2' ∧ b = '0')) ∧ c.isDigit ∧ d.isDigit then
      some [a, b, c, d]
    else none
  | _ => none

/-- Character class `[-._;()/:A-Za-z0-9]` of the DOI regex. -/
def doiBodyChar (c : Char) : Bool :=
  c.isAlpha || c.isDigit || c = '-' || c = '.' || c = '_' || c = ';' ||
  c = '(' || c = ')' || c = '/' || c = ':'

/-- Anchored matcher for the DOI regex `10\.\d{4,9}/[-._;()/:A-Za-z0-9]+`.
As for pages, the greedy `\d{4,9}` must consume the whole digit run,
which therefore must have length between four and nine. -/
def doiMatchAt (s : List Char) : Option (List Char) :=
  match s with
  | '1' :: '0' :: '.' :: r1 =>
    let ds := r1.takeWhile Char.isDigit
    if ds.length < 4 ∨ 9 < ds.length then none
    else
      match r1.drop ds.length with
      | '/' :: r2 =>
        let body := r2.takeWhile doiBodyChar
        if body = [] then none
        else some ('1' :: '0' :: '.' :: ds ++ '/' :: body)
      | _ => none
  | _ => none

/-- Anchored matcher for the URL regex `https?://[^\s]+`. -/
def urlMatchAt (s : List Char) : Option (List Char) :=
  if List.isPrefixOf ("https://".data) s then
    let body := (s.drop 8).takeWhile (fun c => !pyIsSpace c)
    if body = [] then none else some ("https://".data ++ body)
  else if List.isPrefixOf ("http://".data) s then
    let body := (s.drop 7).takeWhile (fun c => !pyIsSpace c)
    if body = [] then none else some ("http://".data ++ body)
  else none

/-- Lazy title scan of the APA regex tail `(?P<title>.+?)\.\s*(?P<rest>.+)$`:
grow the title one character at a time and accept the first period that
still leaves at least one character for `rest`.  `rest` is greedy, so it
extends to the end of the input; when everything after the period is
whitespace the engine gives one whitespace character back to `rest`.
Used only on newline-free text (see `normText`), where `$` is the end of
the string. -/
def findTitleGo (pre : List Char) : List Char → Option (List Char × List Char)
  | [] => none
  | c :: rest =>
    if c = '\n' then none
    else
      match rest with
      | '.' :: r5 =>
        if r5 = [] then findTitleGo (c :: pre) rest
        else
          let w2 := r5.takeWhile pyIsSpace
          let restGroup :=
            if w2.length = r5.length then r5.drop (r5.length - 1)
            else r5.drop w2.length
          some ((c :: pre).reverse, restGroup)
      | _ => findTitleGo (c :: pre) rest

/-- Backtracking over the greedy `\s*` before the title group: try the
maximal whitespace run first, then shorter prefixes. -/
def titleRestAux (r4 : List Char) : Nat → Option (List Char × List Char)
  | 0 => findTitleGo [] r4
  | w + 1 =>
    match findTitleGo [] (r4.drop (w + 1)) with
    | some res => some res
    | none => titleRestAux r4 w

/-- Matcher for `\s*(?P<title>.+?)\.\s*(?P<rest>.+)$`. -/
def titleRest (r4 : List Char) : Option (List Char × List Char) :=
  titleRestAux r4 (r4.takeWhile pyIsSpace).length

/-- Matcher for the part of the APA regex after the authors group:
`\s*\((?P<year>19\d{2}|20\d{2})\)\.` followed by `titleRest`.  The
greedy `\s*` needs no backtracking since `(` is not whitespace. -/
def apaTail (s : List Char) : Option (List Char × List Char × List Char) :=
  match s.dropWhile pyIsSpace with
  | '(' :: r1 =>
    match r1 with
    | a :: b :: c :: d :: ')' :: '.' :: r4 =>
      if ((a = '1' ∧ b = '9') ∨ (a = '2' ∧ b = '0')) ∧ c.isDigit ∧ d.isDigit then
        match titleRest r4 with
        | some (ti, r5) => some ([a, b, c, d], ti, r5)
        | none => none
      else none
    | _ => none
  | _ => none

/-- Lazy authors group of the APA regex `^(?P<authors>.+?)...`: grow the
authors span one character at a time and accept the first position where
the tail matches. -/
def apaMatchGo (accRev : List Char) :
    List Char → Option (List Char × List Char × List Char × List Char)
  | [] => none
  | c :: rest =>
    if c = '\n' then none
    else
      match apaTail rest with
      | some (yr, ti, r5) => some ((c :: accRev).reverse, yr, ti, r5)
      | none => apaMatchGo (c :: accRev) rest

/-- The anchored APA regex
`^(?P<authors>.+?)\s*\((?P<year>19\d{2}|20\d{2})\)\.\s*(?P<title>.+?)\.\s*(?P<rest>.+)$`
applied by `re.match`; returns the four groups on success. -/
def apaMatch (text : List Char) :
    Option (List Char × List Char × List Char × List Char) :=
  apaMatchGo [] text

structure Author where
  family : String
  given : String
deriving DecidableEq, Repr

structure CitationRecord where
  authors : List Author
  title : String
  journal : String
  volume : String
  issue : String
  pages : String
  year : String
  doi : String
  url : String
  raw_text : String
  files : List String
deriving DecidableEq, Repr

/-- Library entries as consumed by `apa_citation`, `replace_ids` and
`insert_refs` (the fields of the record dictionaries those functions
read). -/
structure LibEntry where
  id : String
  authors : List Author
  title : String
  journal : String
  year : String
deriving DecidableEq, Repr

/-- Per-segment branch of `smart_parse_authors`: family/given split.
The `none` result models the `IndexError` the source raises at
`toks[-1]` when the segment splits into no whitespace tokens. -/
def parseOneAuthor (p : List Char) : Option Author :=
  if p.contains ',' then
    let q := splitFirstComma p
    some ⟨String.mk (stripWs q.1), String.mk (stripWs q.2)⟩
  else
    match splitWs p with
    | [] => none
    | t :: ts =>
      some ⟨String.mk ((t :: ts).getLast (by simp)),
            String.mk (joinSpace (t :: ts).dropLast)⟩

/-- Source function `smart_parse_authors` (lines 13 to 28). -/
def smart_parse_authors (raw : String) : Option (List Author) :=
  if raw = "" then some []
  else
    let s :=
      strReplace ("；".data) (";".data)
        (strReplace (" & ".data) (" ; ".data)
          (strReplace (" and ".data) (" ; ".data) raw.data))
    let parts := ((splitOnChar ';' s).map stripAuthorEnds).filter (fun p => p ≠ [])
    parts.mapM parseOneAuthor

/-- Normalised text of `parse_citation`: `raw.replace("\n", " ").strip()`. -/
def normText (raw : String) : List Char :=
  stripWs (strReplace ['\n'] [' '] raw.data)

/-- Year scan of the fallback stages: `re.search(r"(19\d{2}|20\d{2})", text)`,
empty string when there is no match. -/
def yearField (text : List Char) : String :=
  match searchAux yearMatchAt text with
  | some y => String.mk y
  | none => ""

/-- The record as initialised by `parse_citation` before the cascade:
all fields empty except the DOI, URL and pages extractions and the
stripped raw text.  Pages are normalised by `.replace(" ", "")` only. -/
def baseRecord (raw : String) (text : List Char) : CitationRecord :=
  { authors := [], title := "", journal := "", volume := "", issue := "",
    pages :=
      match searchAux pagesMatchAt text with
      | some m => String.mk (strReplace [' '] [] m)
      | none => "",
    year := "",
    doi :=
      match searchAux doiMatchAt text with
      | some d => String.mk d
      | none => "",
    url :=
      match searchAux urlMatchAt text with
      | some u => String.mk u
      | none => "",
    raw_text := String.mk (stripWs raw.data),
    files := [] }

/-- Source function `parse_citation` (lines 34 to 102): the three-stage
cascade (structured APA, period-segmented, comma-segmented).  `none`
models the `IndexError` propagated from `smart_parse_authors`. -/
def parse_citation (raw : String) : Option CitationRecord :=
  let text := normText raw
  let base := baseRecord raw text
  match apaMatch text with
  | some (au, yr, ti, rest) =>
    match smart_parse_authors (String.mk au) with
    | none => none
    | some as_ =>
      some { base with
              authors := as_, year := String.mk yr,
              title := String.mk (stripWs ti),
              journal := String.mk (stripWs rest) }
  | none =>
    let seg := ((splitOnChar '.' text).map stripWs).filter (fun p => p ≠ [])
    match seg with
    | s0 :: s1 :: srest =>
      match smart_parse_authors (String.mk s0) with
      | none => none
      | some as_ =>
        some { base with
                authors := as_, title := String.mk s1,
                journal :=
                  match srest with
                  | s2 :: _ => String.mk s2
                  | [] => "",
                year := yearField text }
    | _ =>
      let parts := ((splitOnChar ',' text).map stripWs).filter (fun p => p ≠ [])
      match parts with
      | [] => some { base with year := yearField text }
      | p0 :: prest =>
        match smart_parse_authors (String.mk p0) with
        | none => none
        | some as_ =>
          some { base with
                  authors := as_,
                  title :=
                    match prest with
                    | p1 :: _ => String.mk p1
                    | [] => "",
                  journal :=
                    match prest with
                    | _ :: p2 :: _ => String.mk p2
                    | _ => "",
                  year := yearField text }

/-- Source function `apa_citation` (lines 108 to 115): the name-year
inline rendering, keyed on the author count. -/
def apa_citation (e : LibEntry) : String :=
  match e.authors with
  | [] => "(Unknown, " ++ e.year ++ ")"
  | [a] => "(" ++ a.family ++ ", " ++ e.year ++ ")"
  | [a, b] => "(" ++ a.family ++ " & " ++ b.family ++ ", " ++ e.year ++ ")"
  | a :: _ => "(" ++ a.family ++ " et al., " ++ e.year ++ ")"

/-- Lazy capture of `\[id:(.*?)\]`: characters up to the first `]`;
fails at the end of the text or on a newline, which `.` does not match. -/
def idCapture : List Char → Option (List Char × List Char)
  | [] => none
  | c :: cs =>
    if c = ']' then some ([], cs)
    else if c = '\n' then none
    else
      match idCapture cs with
      | some (rid, rest) => some (c :: rid, rest)
      | none => none

/-- Fuelled scan of `re.findall(r"\[id:(.*?)\]", text)`: non-overlapping
matches, left to right, the scan resuming after each match.  Fuel
`text.length` always suffices because a match consumes at least five
characters. -/
def findIdsAux : Nat → List Char → List (List Char)
  | _, [] => []
  | 0, _ => []
  | fuel + 1, c :: cs =>
    if List.isPrefixOf ("[id:".data) (c :: cs) then
      match idCapture (cs.drop 3) with
      | some (rid, rest) => rid :: findIdsAux fuel rest
      | none => findIdsAux fuel cs
    else findIdsAux fuel cs

/-- All raw ids of one text block, in match order. -/
def findIds (p : List Char) : List (List Char) :=
  findIdsAux p.length p

/-- One step of the first pass of `replace_ids`: state is the map so
far (in insertion order, as a Python dict) and the next counter value. -/
def pass1Step (st : List (String × Nat) × Nat) (r : String) :
    List (String × Nat) × Nat :=
  if st.1.any (fun e => e.1 = r) then st else (st.1 ++ [(r, st.2)], st.2 + 1)

/-- First pass of `replace_ids` (lines 119 to 127): number the distinct
raw ids in order of first appearance, starting at 1. -/
def pass1 (blocks : List String) : List (String × Nat) :=
  (blocks.foldl
    (fun st p => ((findIds p.data).map String.mk).foldl pass1Step st)
    (([], 1) : List (String × Nat) × Nat)).1

/-- One substitution step of the second pass of `replace_ids`: skip the
raw id when the library has no record with that id, otherwise replace
every occurrence of its token with the rendered citation (name-year
style) or the bracketed number (any other style). -/
def pass2Step (library : List LibEntry) (style : String)
    (txt : List Char) (pr : String × Nat) : List Char :=
  match library.find? (fun e => e.id = pr.1) with
  | none => txt
  | some entry =>
    let rep := if style = "APA7" then apa_citation entry else "[" ++ toString pr.2 ++ "]"
    strReplace (("[id:" ++ pr.1 ++ "]").data) rep.data txt

/-- Second pass of `replace_ids` on one block: iterate the id map in
insertion order. -/
def pass2Block (library : List LibEntry) (idMap : List (String × Nat))
    (style : String) (p : List Char) : List Char :=
  idMap.foldl (pass2Step library style) p

/-- Source function `replace_ids` (lines 118 to 137), on the paragraph
texts: returns the rewritten blocks and the id map. -/
def replace_ids (blocks : List String) (library : List LibEntry)
    (style : String) : List String × List (String × Nat) :=
  let idMap := pass1 blocks
  (blocks.map (fun p => String.mk (pass2Block library idMap style p.data)), idMap)

/-- Stable insertion by assigned number, for Python `sorted(..., key=...)`. -/
def insertByNum (x : String × Nat) : List (String × Nat) → List (String × Nat)
  | [] => [x]
  | y :: ys => if y.2 < x.2 then y :: insertByNum x ys else x :: y :: ys

/-- Stable sort by assigned number. -/
def sortByNum (l : List (String × Nat)) : List (String × Nat) :=
  l.foldr insertByNum []

/-- Source function `insert_refs` (lines 140 to 147): the appended
heading and the reference lines, in ascending number order, silently
skipping ids without a record. -/
def insert_refs (library : List LibEntry) (idMap : List (String × Nat))
    (style : String) : String × List String :=
  let heading := if style = "APA7" then "References" else "参考文献"
  let lines := (sortByNum idMap).filterMap
    (fun pr => (library.find? (fun e => e.id = pr.1)).map
      (fun e => "[" ++ toString pr.2 ++ "] " ++ e.title ++ ". " ++
                e.journal ++ " (" ++ e.year ++ ")."))
  (heading, lines)

/-- Raw ids of all blocks in scanning order (block order, then left to
right), with repetitions. -/
def allIds (blocks : List String) : List String :=
  (blocks.map (fun p => (findIds p.data).map String.mk)).flatten

/-- Specification-side first-occurrence deduplication: keep each id the
first time it appears, given the ids already seen. -/
def firstOccurAux (seen : List String) : List String → List String
  | [] => []
  | x :: xs =>
    if x ∈ seen then firstOccurAux seen xs
    else x :: firstOccurAux (x :: seen) xs

/-- Specification-side numbering: pair a list with consecutive integers
starting at `n`. -/
def numberFrom (n : Nat) : List String → List (String × Nat)
  | [] => []
  | x :: xs => (x, n) :: numberFrom (n + 1) xs

section Lemmas

lemma pass2Step_numeric (lib : List LibEntry) :
    pass2Step lib "GB/T" = pass2Step lib "IEEE" := by
  funext txt pr
  unfold pass2Step
  cases h : lib.find? (fun e => e.id = pr.1) with
  | none => rfl
  | some entry =>
    dsimp only
    rw [if_neg (show ("GB/T" : String) = "APA7" -> False by decide),
        if_neg (show ("IEEE" : String) = "APA7" -> False by decide)]

lemma any_key_iff (m : List (String × Nat)) (r : String) :
    (m.any (fun e => e.1 = r)) = true ↔ r ∈ m.map Prod.fst := by
  simp [List.any_eq_true, List.mem_map]

lemma pass1_flatten (blocks : List String) (st : List (String × Nat) × Nat) :
    blocks.foldl (fun st p => ((findIds p.data).map String.mk).foldl pass1Step st) st
      = (allIds blocks).foldl pass1Step st := by
  induction blocks generalizing st with
  | nil => simp [allIds]
  | cons b bs ih =>
    simp only [List.foldl_cons, allIds, List.map_cons, List.flatten_cons,
      List.foldl_append]
    exact ih _

lemma firstOccurAux_congr (ids : List String) (s1 s2 : List String)
    (h : ∀ x, x ∈ s1 ↔ x ∈ s2) :
    firstOccurAux s1 ids = firstOccurAux s2 ids := by
  induction ids generalizing s1 s2 with
  | nil => rfl
  | cons x xs ih =>
    simp only [firstOccurAux]
    by_cases hx : x ∈ s1
    · rw [if_pos hx, if_pos ((h x).mp hx)]
      exact ih s1 s2 h
    · rw [if_neg hx, if_neg (fun c => hx ((h x).mpr c))]
      refine congrArg _ (ih _ _ ?_)
      intro y
      simp only [List.mem_cons]
      exact or_congr Iff.rfl (h y)

lemma pass1_fold_spec (ids : List String) (m : List (String × Nat)) (c : Nat) :
    ids.foldl pass1Step (m, c) =
      (m ++ numberFrom c (firstOccurAux (m.map Prod.fst) ids),
       c + (firstOccurAux (m.map Prod.fst) ids).length) := by
  induction ids generalizing m c with
  | nil => simp [firstOccurAux, numberFrom]
  | cons r rest ih =>
    simp only [List.foldl_cons, firstOccurAux]
    by_cases h : r ∈ m.map Prod.fst
    · have hb : (m.any (fun e => e.1 = r)) = true := (any_key_iff m r).mpr h
      rw [if_pos h]
      have : pass1Step (m, c) r = (m, c) := by
        unfold pass1Step
        simp only [hb, if_true]
      rw [this, ih]
    · have hb : ¬ ((m.any (fun e => e.1 = r)) = true) := by
        intro hc; exact h ((any_key_iff m r).mp hc)
      rw [if_neg h]
      have : pass1Step (m, c) r = (m ++ [(r, c)], c + 1) := by
        unfold pass1Step
        simp only [Bool.not_eq_true] at hb
        simp only [hb, Bool.false_eq_true, if_false]
      rw [this, ih]
      have hkeys : (m ++ [(r, c)]).map Prod.fst = m.map Prod.fst ++ [r] := by simp
      rw [hkeys]
      rw [firstOccurAux_congr rest (m.map Prod.fst ++ [r]) (r :: m.map Prod.fst)
        (by intro y; simp [List.mem_append, List.mem_cons, or_comm])]
      simp only [Prod.mk.injEq]
      refine ⟨?_, ?_⟩
      · rw [List.append_assoc]
        rfl
      · simp only [List.length_cons]
        omega

lemma pass2Block_skip (lib : List LibEntry) (style rid : String)
    (h : lib.find? (fun e => e.id = rid) = none) (idMap : List (String × Nat))
    (b : List Char) :
    pass2Block lib idMap style b
      = pass2Block lib (idMap.filter (fun pr => pr.1 ≠ rid)) style b := by
  induction idMap generalizing b with
  | nil => rfl
  | cons pr rest ih =>
    by_cases hp : pr.1 = rid
    · have hstep : pass2Step lib style b pr = b := by
        unfold pass2Step
        rw [hp, h]
      have hfil : (pr :: rest).filter (fun pr => pr.1 ≠ rid)
          = rest.filter (fun pr => pr.1 ≠ rid) := by
        simp [List.filter_cons, hp]
      rw [hfil]
      simp only [pass2Block, List.foldl_cons]
      rw [hstep]
      exact ih b
    · have hfil : (pr :: rest).filter (fun pr => pr.1 ≠ rid)
          = pr :: rest.filter (fun pr => pr.1 ≠ rid) := by
        simp [List.filter_cons, hp]
      rw [hfil]
      simp only [pass2Block, List.foldl_cons]
      exact ih _

lemma pass2Block_all_absent (lib : List LibEntry) (style : String)
    (idMap : List (String × Nat))
    (h : ∀ pr ∈ idMap, lib.find? (fun e => e.id = pr.1) = none)
    (b : List Char) :
    pass2Block lib idMap style b = b := by
  induction idMap generalizing b with
  | nil => rfl
  | cons pr rest ih =>
    simp only [pass2Block, List.foldl_cons]
    have hstep : pass2Step lib style b pr = b := by
      unfold pass2Step
      rw [h pr (by simp)]
    rw [hstep]
    exact ih (fun q hq => h q (by simp [hq])) b

end Lemmas

/-- The record `parse_citation` produces for the input `"1-2"`
(comma-fallback stage; only the pages extraction and the raw text are
non-trivial). -/
def recC3 : CitationRecord :=
  { authors := [⟨"1-2", ""⟩], title := "", journal := "", volume := "",
    issue := "", pages := "1-2", year := "", doi := "", url := "",
    raw_text := "1-2", files := [] }

/-- The record `parse_citation` produces for the input `"x 1999"`
(comma-fallback stage; the year comes from the whole-text scan). -/
def recC5 : CitationRecord :=
  { authors := [⟨"1999", "x"⟩], title := "", journal := "", volume := "",
    issue := "", pages := "", year := "1999", doi := "", url := "",
    raw_text := "x 1999", files := [] }

/-- C1: the claim says `parse_citation` terminates normally and returns a
record for every input string.  It does not: for the input `"a;\t;b"`
the comma-fallback stage passes `"a;\t;b"` to `smart_parse_authors`,
whose middle semicolon segment `"\t"` survives the `strip(" ,.")` filter,
contains no comma and splits into no whitespace tokens, so `toks[-1]`
raises `IndexError`.  The theorem evaluates the embedding at that
failing input (`none` models the exception). -/
theorem c1_parse_citation_crashes : parse_citation "a;\t;b" = none := by decide

/-- C2: the claim says `smart_parse_authors` returns the empty sequence
on every empty or whitespace-only input.  For the whitespace-only input
`"\t"` the source instead raises `IndexError` (the tab survives
`strip(" ,.")`, then `"\t".split()` is empty and `toks[-1]` fails).
The theorem evaluates the embedding at that failing input (`none`
models the exception). -/
theorem c2_author_parser_crashes : smart_parse_authors "\t" = none := by decide

/-- C3, counterexample: on the input `"pp. 123 – 456"` named by the
claim, the pages field is `"123–456"` — the en-dash is kept, because the
source only applies `.replace(" ", "")` — and not the claimed
`"123-456"`. -/
theorem c3_pages_counterexample :
    (parse_citation "pp. 123 – 456").map (fun r => r.pages) = some "123–456" ∧
    (parse_citation "pp. 123 – 456").map (fun r => r.pages) ≠ some "123-456" := by
  constructor
  · decide
  · decide

/-- C3, amended: for every input on which the page-range regex finds a
(first) match, every record `parse_citation` returns carries as pages
that match with its space characters removed; the dash is kept exactly
as matched (no dash conversion).  No stage of the cascade overwrites
the field. -/
theorem c3_pages_amended (raw : String) (m : List Char) (r : CitationRecord)
    (hm : searchAux pagesMatchAt (normText raw) = some m)
    (hr : parse_citation raw = some r) :
    r.pages = String.mk (strReplace [' '] [] m) := by
  simp only [parse_citation, baseRecord, hm] at hr
  split at hr
  · split at hr
    · exact absurd hr (by simp)
    · obtain rfl := (Option.some.injEq _ _).mp hr |>.symm
      rfl
  · split at hr
    · split at hr
      · exact absurd hr (by simp)
      · obtain rfl := (Option.some.injEq _ _).mp hr |>.symm
        rfl
    · split at hr
      · obtain rfl := (Option.some.injEq _ _).mp hr |>.symm
        rfl
      · split at hr
        · exact absurd hr (by simp)
        · obtain rfl := (Option.some.injEq _ _).mp hr |>.symm
          rfl

/-- C3, witness: the amended theorem applied at the concrete input
`"1-2"`, all hypotheses discharged by evaluation. -/
theorem c3_pages_amended_witness :
    searchAux pagesMatchAt (normText "1-2") = some ['1', '-', '2'] ∧
    parse_citation "1-2" = some recC3 ∧
    recC3.pages = String.mk (strReplace [' '] [] ['1', '-', '2']) :=
  ⟨by decide, by decide,
   c3_pages_amended "1-2" ['1', '-', '2'] recC3 (by decide) (by decide)⟩

/-- C4, counterexample: on `"Smith, J.; Doe, A."` the given names come
out as `"J"` and `"A"` — the trailing periods are removed by the
`strip(" ,.")` segment trim — not `"J."` and `"A."` as claimed. -/
theorem c4_periods_counterexample :
    smart_parse_authors "Smith, J.; Doe, A."
      = some [⟨"Smith", "J"⟩, ⟨"Doe", "A"⟩] ∧
    smart_parse_authors "Smith, J.; Doe, A."
      ≠ some [⟨"Smith", "J."⟩, ⟨"Doe", "A."⟩] :=
  ⟨by decide, by decide⟩

/-- C4, amended: `smart_parse_authors "Smith, J.; Doe, A."` returns
exactly the two family/given pairs with the trailing periods stripped
from the given names. -/
theorem c4_periods_amended :
    smart_parse_authors "Smith, J.; Doe, A."
      = some [⟨"Smith", "J"⟩, ⟨"Doe", "A"⟩] := by decide

/-- C5, counterexample: the input `"Smith, Title, Journal 31995"` is
handled by the comma fallback and contains no standalone 4-digit token,
so the claim demands an empty year; the year regex has no token
boundaries, finds `"1995"` inside `"31995"`, and the record carries
`"1995"`. -/
theorem c5_year_counterexample :
    (parse_citation "Smith, Title, Journal 31995").map (fun r => r.year)
      = some "1995" ∧
    (parse_citation "Smith, Title, Journal 31995").map (fun r => r.year)
      ≠ some "" := ⟨by decide, by decide⟩

/-- C5, amended: whenever the structured APA stage fails and a fallback
stage produces the record, the year field equals the leftmost substring
of the whole normalised text matching `19dd` or `20dd` (`yearField`),
regardless of surrounding digits, and is empty when there is none. -/
theorem c5_year_amended (raw : String) (r : CitationRecord)
    (hapa : apaMatch (normText raw) = none)
    (hr : parse_citation raw = some r) :
    r.year = yearField (normText raw) := by
  simp only [parse_citation, hapa] at hr
  split at hr
  · split at hr
    · exact absurd hr (by simp)
    · obtain rfl := (Option.some.injEq _ _).mp hr |>.symm
      rfl
  · split at hr
    · obtain rfl := (Option.some.injEq _ _).mp hr |>.symm
      rfl
    · split at hr
      · exact absurd hr (by simp)
      · obtain rfl := (Option.some.injEq _ _).mp hr |>.symm
        rfl

/-- C5, witness: the amended theorem applied at the concrete input
`"x 1999"`, all hypotheses discharged by evaluation. -/
theorem c5_year_amended_witness :
    apaMatch (normText "x 1999") = none ∧
    parse_citation "x 1999" = some recC5 ∧
    recC5.year = yearField (normText "x 1999") :=
  ⟨by decide, by decide, c5_year_amended "x 1999" recC5 (by decide) (by decide)⟩

/-- C6: pass 1 of `replace_ids` numbers the distinct raw ids with the
consecutive integers from 1 in order of first appearance (block order,
then left to right), later occurrences reusing the assigned number: the
computed map equals the first-occurrence list paired with `1..k`; and
the concrete example of the claim yields the map `b = 1, a = 2`. -/
theorem c6_numbering :
    (∀ blocks : List String,
      pass1 blocks = numberFrom 1 (firstOccurAux [] (allIds blocks))) ∧
    pass1 ["See [id:b] and [id:a]", "Also [id:b]"] = [("b", 1), ("a", 2)] := by
  constructor
  · intro blocks
    unfold pass1
    rw [pass1_flatten, pass1_fold_spec]
    simp
  · decide

/-- Library entry whose id is the raw id `"[id:zzz"`, which the lazy
token scan extracts from the nested text `"[id:[id:zzz]]"`. -/
def entryC7 : LibEntry := ⟨"[id:zzz", [], "T", "J", "2020"⟩

/-- Library entry with the unrelated id `"aaa"`, a repository without
`"zzz"`. -/
def entryAaa : LibEntry := ⟨"aaa", [], "T", "J", "2020"⟩

/-- C7, counterexample: `"zzz"` is a numbered raw id of the block
`"[id:[id:zzz]][id:zzz]"` and has no record in the repository, yet one
of the two occurrences of `"[id:zzz]"` disappears: the resolved raw id
`"[id:zzz"` (extracted from the nested token) has a record, and
replacing its token `"[id:[id:zzz]"` destroys the overlapping
occurrence.  So an absent id's token is not always left
character-for-character unchanged. -/
theorem c7_unknown_id_counterexample :
    ((pass1 ["[id:[id:zzz]][id:zzz]"]).any (fun e => e.1 = "zzz")) = true ∧
    [entryC7].find? (fun e => e.id = "zzz") = none ∧
    (replace_ids ["[id:[id:zzz]][id:zzz]"] [entryC7] "GB/T").1
      = ["[1]][id:zzz]"] ∧
    occCount ("[id:zzz]".data) ("[id:[id:zzz]][id:zzz]".data) = 2 ∧
    occCount ("[id:zzz]".data) ("[1]][id:zzz]".data) = 1 :=
  ⟨by decide, by decide, by decide, by decide, by decide⟩

/-- C7, amended: a numbered raw id with no record never triggers a
substitution of its own — pass 2 of `replace_ids` behaves as if the id
were absent from the map — and when no numbered raw id has a record all
blocks are returned verbatim; in particular the example of the claim,
resolving `"[id:zzz]"` against a repository without `zzz`, leaves the
block unchanged.  (Only an overlapping token of a resolved raw id, as in
the counterexample, can still destroy an occurrence.) -/
theorem c7_unknown_id_amended :
    (∀ (lib : List LibEntry) (style rid : String)
        (idMap : List (String × Nat)) (b : List Char),
      lib.find? (fun e => e.id = rid) = none →
      pass2Block lib idMap style b
        = pass2Block lib (idMap.filter (fun pr => pr.1 ≠ rid)) style b) ∧
    (∀ (lib : List LibEntry) (style : String) (blocks : List String),
      (∀ pr ∈ pass1 blocks, lib.find? (fun e => e.id = pr.1) = none) →
      (replace_ids blocks lib style).1 = blocks) ∧
    (replace_ids ["[id:zzz]"] [entryAaa] "GB/T").1 = ["[id:zzz]"] := by
  refine ⟨?_, ?_, by decide⟩
  · intro lib style rid idMap b h
    exact pass2Block_skip lib style rid h idMap b
  · intro lib style blocks h
    unfold replace_ids
    dsimp only
    have : ∀ p ∈ blocks,
        String.mk (pass2Block lib (pass1 blocks) style p.data) = p := by
      intro p _
      rw [pass2Block_all_absent lib style (pass1 blocks) h p.data]
    rw [List.map_congr_left this, List.map_id']

/-- C7, witness: both universally quantified parts of the amended
theorem applied at concrete inputs, the hypotheses discharged by
evaluation. -/
theorem c7_unknown_id_amended_witness :
    [entryAaa].find? (fun e => e.id = "zzz") = none ∧
    pass2Block [entryAaa] [("zzz", 1)] "GB/T" ("[id:zzz]".data)
      = pass2Block [entryAaa]
          ([("zzz", 1)].filter (fun pr => pr.1 ≠ "zzz")) "GB/T"
          ("[id:zzz]".data) ∧
    (replace_ids ["[id:q]"] [entryAaa] "IEEE").1 = ["[id:q]"] :=
  ⟨by decide,
   c7_unknown_id_amended.1 [entryAaa] "GB/T" "zzz" [("zzz", 1)]
     ("[id:zzz]".data) (by decide),
   c7_unknown_id_amended.2.1 [entryAaa] "IEEE" ["[id:q]"] (by decide)⟩

/-- C8: under the name-year style `apa_citation` renders exactly the
four claimed templates for 0, 1, 2 and 3-or-more authors, families
taken in record order; and the concrete example with families A, B, C
and year 2020 renders as the claimed string. -/
theorem c8_inline_render :
    (∀ e : LibEntry,
      (e.authors = [] →
        apa_citation e = "(Unknown, " ++ e.year ++ ")") ∧
      (∀ a, e.authors = [a] →
        apa_citation e = "(" ++ a.family ++ ", " ++ e.year ++ ")") ∧
      (∀ a b, e.authors = [a, b] →
        apa_citation e
          = "(" ++ a.family ++ " & " ++ b.family ++ ", " ++ e.year ++ ")") ∧
      (∀ a b c rest, e.authors = a :: b :: c :: rest →
        apa_citation e = "(" ++ a.family ++ " et al., " ++ e.year ++ ")")) ∧
    apa_citation ⟨"x", [⟨"A", ""⟩, ⟨"B", ""⟩, ⟨"C", ""⟩], "T", "J", "2020"⟩
      = "(A et al., 2020)" := by
  constructor
  · intro e
    refine ⟨?_, ?_, ?_, ?_⟩
    · intro h
      unfold apa_citation
      rw [h]
    · intro a h
      unfold apa_citation
      rw [h]
    · intro a b h
      unfold apa_citation
      rw [h]
    · intro a b c rest h
      unfold apa_citation
      rw [h]
  · decide

/-- C8, witness: the four cases of the theorem applied at concrete
entries with 0, 1, 2 and 3 authors, the author-shape hypotheses
discharged by `rfl`. -/
theorem c8_inline_render_witness :
    apa_citation ⟨"w", [], "", "", "2001"⟩
      = "(Unknown, " ++ (⟨"w", [], "", "", "2001"⟩ : LibEntry).year ++ ")" ∧
    apa_citation ⟨"w", [⟨"F", "G"⟩], "", "", "2001"⟩
      = "(" ++ ("F" : String) ++ ", "
          ++ (⟨"w", [⟨"F", "G"⟩], "", "", "2001"⟩ : LibEntry).year ++ ")" ∧
    apa_citation ⟨"w", [⟨"F", "G"⟩, ⟨"H", "I"⟩], "", "", "2001"⟩
      = "(" ++ ("F" : String) ++ " & " ++ ("H" : String) ++ ", "
          ++ (⟨"w", [⟨"F", "G"⟩, ⟨"H", "I"⟩], "", "", "2001"⟩ : LibEntry).year
          ++ ")" ∧
    apa_citation ⟨"w", [⟨"F", "G"⟩, ⟨"H", "I"⟩, ⟨"K", "L"⟩], "", "", "2001"⟩
      = "(" ++ ("F" : String) ++ " et al., "
          ++ (⟨"w", [⟨"F", "G"⟩, ⟨"H", "I"⟩, ⟨"K", "L"⟩], "", "", "2001"⟩
                : LibEntry).year ++ ")" :=
  ⟨(c8_inline_render.1 _).1 rfl,
   (c8_inline_render.1 _).2.1 ⟨"F", "G"⟩ rfl,
   (c8_inline_render.1 _).2.2.1 ⟨"F", "G"⟩ ⟨"H", "I"⟩ rfl,
   (c8_inline_render.1 _).2.2.2 ⟨"F", "G"⟩ ⟨"H", "I"⟩ ⟨"K", "L"⟩ [] rfl⟩

/-- C9: the GB/T and IEEE styles behave identically throughout: for
every block sequence, repository and id map, `replace_ids` (both the
rewritten blocks, where resolved tokens become the bracketed number,
and the returned map) and `insert_refs` (the non-name-year heading and
the reference lines) agree between the two styles. -/
theorem c9_numeric_styles_agree :
    ∀ (blocks : List String) (lib : List LibEntry)
      (idMap : List (String × Nat)),
      replace_ids blocks lib "GB/T" = replace_ids blocks lib "IEEE" ∧
      insert_refs lib idMap "GB/T" = insert_refs lib idMap "IEEE" := by
  intro blocks lib idMap
  constructor
  · unfold replace_ids pass2Block
    rw [pass2Step_numeric]
  · unfold insert_refs
    rfl

/-- Library entry used by the reference-list gap example of C10. -/
def entryC10 : LibEntry := ⟨"b", [], "T2", "J2", "2002"⟩

/-- C10: the id map computed by pass 1 of `replace_ids` never depends
on the repository or the style, so a raw id without a record still
consumes a number; consequently the built reference list can have gaps:
for the block `"[id:a][id:b]"` and a repository holding only `b`, the
map is `a = 1, b = 2` and the only emitted line is numbered 2. -/
theorem c10_map_independent_and_gaps :
    (∀ (blocks : List String) (lib1 lib2 : List LibEntry)
        (style1 style2 : String),
      (replace_ids blocks lib1 style1).2 = (replace_ids blocks lib2 style2).2) ∧
    pass1 ["[id:a][id:b]"] = [("a", 1), ("b", 2)] ∧
    (insert_refs [entryC10] (pass1 ["[id:a][id:b]"]) "IEEE").2
      = ["[2] T2. J2 (2002)."] :=
  ⟨fun _ _ _ _ _ => rfl, by decide, by decide⟩
